import Mathlib

/-!
Verification model of the fredd-ai-job-applier Chrome extension, shallowly
embedding the pipeline and state-synchronization logic of the popup script
(the JobApplier class) together with the background service worker.

Modelling decisions, each traced to the source:

* A Job mirrors the object literal built by the scraping content script
  (post_id, jobTitle, company, url, status, starred, dateFound) plus the
  fields later mutated by the controller (description, matchScore,
  coverLetter, error, appliedDate).
* The popup holds jobQueue, isProcessing, isPaused and currentJob.  In the
  source currentJob stores a reference that, on the normal path, is the
  element of jobQueue returned by Array.prototype.find; it is modelled here
  by the post_id of that element, with lookups through findJob.
* Durable chrome.storage.local is modelled by storedQueue (the jobQueue
  key); the background service worker holds an in-memory applicationState
  record, modelled by bgMem, which saveApplicationState mirrors to storage.
  The popup round-trips through it via UPDATE_APPLICATION_STATE and
  GET_APPLICATION_STATE messages (updateBackgroundState, popupReopen).
* Externally-dependent calls (DOM scraping of listings and descriptions,
  the analysis request, the submission attempt) are cooperative suspension
  points: their results arrive as separate message-handler invocations, so
  each handler invocation is one atomic transition of the Step relation,
  taking the external outcome as a parameter.
* Observable side effects that the claims mention are recorded as a list of
  events: starting a description extraction for a job, attempting
  submission, surfacing the review section, and arming the
  setTimeout-based continuation of the scheduling loop.
* The clearAllData branch modelled is the one where the user confirms the
  dialog; chrome.storage.local.clear also removes the persisted settings
  and applicationState keys, but the in-memory copies in both contexts are
  untouched by it, which the model reflects by leaving the popup fields and
  bgMem unchanged.
-/

namespace JobApplierSpec

/-- Persisted status values of a job, as written by the source
(pending, reviewing, applying, applied, skipped). -/
inductive JobStatus
  | pending
  | reviewing
  | applying
  | applied
  | skipped
deriving DecidableEq

/-- One job record, as created by the scraping script and mutated by the
controller. -/
structure Job where
  post_id : String
  jobTitle : String
  company : String
  url : String
  status : JobStatus
  starred : Bool
  dateFound : Nat
  description : Option String := none
  matchScore : Option Nat := none
  coverLetter : Option String := none
  error : Option String := none
  appliedDate : Option Nat := none
deriving DecidableEq

/-- The background service worker state fields the popup reads back on
restore (applicationState.isProcessing and applicationState.currentJob). -/
structure AppState where
  isProcessing : Bool
  currentJob : Option String
deriving DecidableEq

/-- Combined system state: the popup fields, the durable jobQueue storage
key, and the background applicationState. -/
structure SysState where
  jobQueue : List Job
  isProcessing : Bool
  isPaused : Bool
  currentJob : Option String
  storedQueue : List Job
  bgMem : AppState
deriving DecidableEq

/-- Observable side effects of an operation. -/
inductive Event
  | extractDesc (id : String)
  | submitAttempt (id : String)
  | surfaceReview (id : String)
  | scheduleLoop (ms : Nat)
deriving DecidableEq

/-- Lookup by post_id: this.jobQueue.find(j => j.post_id === jobId). -/
def findJob (q : List Job) (id : String) : Option Job :=
  q.find? (fun j => j.post_id == id)

/-- The scheduling selection: this.jobQueue.find on pending status. -/
def firstPending (q : List Job) : Option Job :=
  q.find? (fun j => j.status == JobStatus.pending)

/-- Status of the job a given id resolves to, if any. -/
def statusOf (q : List Job) (id : String) : Option JobStatus :=
  (findJob q id).map Job.status

/-- Recorded error of the job a given id resolves to, if any. -/
def errorOf (q : List Job) (id : String) : Option String :=
  (findJob q id).bind Job.error

/-- In-place mutation of the first job matching an id, the effect of
finding a job by id and assigning to its fields. -/
def updateFirst : List Job → String → (Job → Job) → List Job
  | [], _, _ => []
  | j :: rest, id, f =>
    if j.post_id == id then f j :: rest else j :: updateFirst rest id f

/-- In-place mutation of the job at a position, the effect of
this.jobQueue[index].field = value. -/
def updateAt : List Job → Nat → (Job → Job) → List Job
  | [], _, _ => []
  | j :: rest, 0, f => f j :: rest
  | j :: rest, Nat.succ n, f => j :: updateAt rest n f

/-- saveJobQueue: chrome.storage.local.set with the jobQueue key. -/
def saveJobQueue (s : SysState) : SysState :=
  { s with storedQueue := s.jobQueue }

/-- updateBackgroundState: the UPDATE_APPLICATION_STATE message carrying
isProcessing and currentJob, which the background merges into its
applicationState and persists. -/
def updateBackgroundState (s : SysState) : SysState :=
  { s with bgMem := { isProcessing := s.isProcessing, currentJob := s.currentJob } }

/-- startApplication, success path: settings present and tab on the target
site; sets isProcessing true, isPaused false, pushes the state to the
background, then injects the listing scraper (whose results arrive later
as a JOBS_SCRAPED message). -/
def startApplication (s : SysState) : SysState :=
  updateBackgroundState { s with isProcessing := true, isPaused := false }

/-- pauseApplication: isPaused true, isProcessing false, state pushed to
the background. -/
def pauseApplication (s : SysState) : SysState :=
  updateBackgroundState { s with isPaused := true, isProcessing := false }

/-- processJobQueue: return early when paused; otherwise select the first
pending job; if none, report all processed and drop isProcessing;
otherwise set currentJob and start scraping its description. -/
def processJobQueue (s : SysState) : SysState × List Event :=
  if s.isPaused then (s, [])
  else
    match firstPending s.jobQueue with
    | none => ({ s with isProcessing := false }, [])
    | some j => ({ s with currentJob := some j.post_id }, [Event.extractDesc j.post_id])

/-- The deduplicating insertion of handleScrapedJobs: candidates whose
post_id already occurs in the store are dropped, the rest appended. -/
def appendUnique (queue batch : List Job) : List Job :=
  queue ++ batch.filter (fun c => !(queue.any (fun j => j.post_id == c.post_id)))

/-- handleScrapedJobs: empty result or all-duplicates result stops with
isProcessing false; otherwise the unique jobs are appended, persisted, and
the scheduling loop is entered. -/
def handleScrapedJobs (s : SysState) (newJobs : List Job) : SysState × List Event :=
  if newJobs.isEmpty then ({ s with isProcessing := false }, [])
  else if (newJobs.filter (fun c => !(s.jobQueue.any (fun j => j.post_id == c.post_id)))).isEmpty then
    ({ s with isProcessing := false }, [])
  else processJobQueue (saveJobQueue { s with jobQueue := appendUnique s.jobQueue newJobs })

/-- processSpecificJob: guarded on the indexed job being pending; sets
currentJob and isProcessing, pushes state to the background, then runs the
scheduling loop (which re-selects the first pending job). -/
def processSpecificJob (s : SysState) (idx : Nat) : SysState × List Event :=
  match s.jobQueue[idx]? with
  | none => (s, [])
  | some j =>
    if j.status == JobStatus.pending then
      processJobQueue (updateBackgroundState { s with currentJob := some j.post_id, isProcessing := true })
    else (s, [])

/-- Error text prefix used by the analyzeJobWithAI catch block. -/
def aiFailText (msg : String) : String :=
  "AI analysis failed: " ++ msg

/-- Fallback error text of handleApplicationSubmitted. -/
def submitFailText : String :=
  "Application submission failed"

/-- analyzeJobWithAI on a job already holding its description: on success
the matchScore, coverLetter and reviewing status are stored and
showReviewSection runs (review surfaced, isProcessing false); on failure
the job is skipped with the error recorded and the loop continuation is
armed at 1000 ms. -/
def analyzeJobWithAI (s : SysState) (id : String) (outcome : Except String (Nat × String)) :
    SysState × List Event :=
  match outcome with
  | Except.ok res =>
    let q1 := updateFirst s.jobQueue id
      (fun j => { j with matchScore := some res.1, coverLetter := some res.2,
                         status := JobStatus.reviewing })
    let s1 := saveJobQueue { s with jobQueue := q1 }
    ({ s1 with isProcessing := false }, [Event.surfaceReview id])
  | Except.error msg =>
    let q1 := updateFirst s.jobQueue id
      (fun j => { j with status := JobStatus.skipped, error := some (aiFailText msg) })
    (saveJobQueue { s with jobQueue := q1 }, [Event.scheduleLoop 1000])

/-- The handleJobDescription function as written, with its three
parameters (jobId, description, error): a supplied error would skip the
job, record it and arm the loop continuation at 1000 ms; otherwise the
description value (undefined representable as none) is stored on the job
and analysis follows; an unknown job id is ignored. -/
def handleJobDescription (s : SysState) (id : String) (description error : Option String)
    (analysis : Except String (Nat × String)) : SysState × List Event :=
  match error with
  | some err =>
    match findJob s.jobQueue id with
    | none => (s, [])
    | some _ =>
      let q1 := updateFirst s.jobQueue id
        (fun j => { j with status := JobStatus.skipped, error := some err })
      (saveJobQueue { s with jobQueue := q1 }, [Event.scheduleLoop 1000])
  | none =>
    match findJob s.jobQueue id with
    | none => (s, [])
    | some _ =>
      let q1 := updateFirst s.jobQueue id (fun j => { j with description := description })
      analyzeJobWithAI (saveJobQueue { s with jobQueue := q1 }) id analysis

/-- The listener dispatch for a JOB_DESCRIPTION_SCRAPED message: the
popup listener calls handleJobDescription with only message.jobId and
message.description, dropping message.error, so the handler error branch
is unreachable in the program; an extraction failure arrives as a message
with no description field, here descOpt = none. -/
def dispatchDescriptionScraped (s : SysState) (id : String) (descOpt : Option String)
    (analysis : Except String (Nat × String)) : SysState × List Event :=
  handleJobDescription s id descOpt none analysis

/-- confirmApplication: requires a current job; marks it applying,
persists, attempts submission, sets isProcessing true and arms the loop
continuation at 2000 ms. -/
def confirmApplication (s : SysState) : SysState × List Event :=
  match s.currentJob with
  | none => (s, [])
  | some id =>
    let q1 := updateFirst s.jobQueue id (fun j => { j with status := JobStatus.applying })
    ({ saveJobQueue { s with jobQueue := q1 } with isProcessing := true },
     [Event.submitAttempt id, Event.scheduleLoop 2000])

/-- declineApplication: requires a current job; marks it skipped without
any submission attempt, persists, sets isProcessing true and arms the loop
continuation at 1000 ms. -/
def declineApplication (s : SysState) : SysState × List Event :=
  match s.currentJob with
  | none => (s, [])
  | some id =>
    let q1 := updateFirst s.jobQueue id (fun j => { j with status := JobStatus.skipped })
    ({ saveJobQueue { s with jobQueue := q1 } with isProcessing := true },
     [Event.scheduleLoop 1000])

/-- The handleApplicationSubmitted function as written, with its three
parameters (jobId, success, error): success stores the applied status and
timestamp, failure stores skipped and the supplied or fallback error; an
unknown job id is ignored. -/
def handleApplicationSubmitted (s : SysState) (id : String) (success : Bool)
    (err : Option String) (t : Nat) : SysState × List Event :=
  match findJob s.jobQueue id with
  | none => (s, [])
  | some _ =>
    if success then
      let q1 := updateFirst s.jobQueue id
        (fun j => { j with status := JobStatus.applied, appliedDate := some t })
      (saveJobQueue { s with jobQueue := q1 }, [])
    else
      let q1 := updateFirst s.jobQueue id
        (fun j => { j with status := JobStatus.skipped, error := some (err.getD submitFailText) })
      (saveJobQueue { s with jobQueue := q1 }, [])

/-- The listener dispatch for an APPLICATION_SUBMITTED message: the popup
listener calls handleApplicationSubmitted with only message.jobId and
message.success, dropping message.error, so a failure report always
records the fallback text. -/
def dispatchApplicationSubmitted (s : SysState) (id : String) (success : Bool) (t : Nat) :
    SysState × List Event :=
  handleApplicationSubmitted s id success none t

/-- clearAllData, confirmed branch: chrome.storage.local.clear plus
this.jobQueue = []; the in-memory popup flags and the background state are
not reset by it. -/
def clearAllData (s : SysState) : SysState :=
  { s with jobQueue := [], storedQueue := [] }

/-- toggleJobStar on an in-range index: flips starred and persists. -/
def toggleJobStar (s : SysState) (idx : Nat) : SysState :=
  if idx < s.jobQueue.length then
    saveJobQueue { s with jobQueue := updateAt s.jobQueue idx (fun j => { j with starred := !j.starred }) }
  else s

/-- continueProcessing: returns unless isProcessing with a current job,
otherwise runs the scheduling loop. -/
def continueProcessing (s : SysState) : SysState × List Event :=
  if s.isProcessing && s.currentJob.isSome then processJobQueue s else (s, [])

/-- Delivery of the background CONTINUE_PROCESSING notification: the popup
listener adopts the carried job as current, sets isProcessing true and
calls continueProcessing. -/
def continueDelivery (s : SysState) (id : String) : SysState × List Event :=
  continueProcessing { s with currentJob := some id, isProcessing := true }

/-- Popup teardown and recreation: the fresh JobApplier starts with
isProcessing false, isPaused false and no current job, loads jobQueue from
storage, then restoreApplicationState copies isProcessing and currentJob
from the background and, when both are live, continues processing. -/
def popupReopen (s : SysState) : SysState × List Event :=
  let s2 : SysState :=
    { s with jobQueue := s.storedQueue, isPaused := false,
             isProcessing := s.bgMem.isProcessing, currentJob := s.bgMem.currentJob }
  if s2.isProcessing && s2.currentJob.isSome then continueProcessing s2 else (s2, [])

/-- The empty initial state: no jobs discovered, nothing persisted, both
contexts idle. -/
def initState : SysState :=
  { jobQueue := [], isProcessing := false, isPaused := false, currentJob := none,
    storedQueue := [], bgMem := { isProcessing := false, currentJob := none } }

/-- One atomic transition of the system: a user action on the popup, a
message-handler invocation with its external outcome, a timer firing, or
teardown and recreation of the popup. -/
inductive Step : SysState → List Event → SysState → Prop
  | start (s : SysState) : Step s [] (startApplication s)
  | pause (s : SysState) : Step s [] (pauseApplication s)
  | scraped (s : SysState) (batch : List Job) (h : ∀ j ∈ batch, j.status = JobStatus.pending) :
      Step s (handleScrapedJobs s batch).2 (handleScrapedJobs s batch).1
  | procSpecific (s : SysState) (idx : Nat) :
      Step s (processSpecificJob s idx).2 (processSpecificJob s idx).1
  | descResult (s : SysState) (id : String) (descOpt : Option String)
      (an : Except String (Nat × String)) :
      Step s (dispatchDescriptionScraped s id descOpt an).2 (dispatchDescriptionScraped s id descOpt an).1
  | confirm (s : SysState) : Step s (confirmApplication s).2 (confirmApplication s).1
  | decline (s : SysState) : Step s (declineApplication s).2 (declineApplication s).1
  | submitted (s : SysState) (id : String) (ok : Bool) (t : Nat) :
      Step s (dispatchApplicationSubmitted s id ok t).2 (dispatchApplicationSubmitted s id ok t).1
  | clear (s : SysState) : Step s [] (clearAllData s)
  | reopen (s : SysState) : Step s (popupReopen s).2 (popupReopen s).1
  | continueMsg (s : SysState) (id : String) (h1 : s.bgMem.isProcessing = true)
      (h2 : s.bgMem.currentJob = some id) :
      Step s (continueDelivery s id).2 (continueDelivery s id).1
  | loopTimer (s : SysState) : Step s (processJobQueue s).2 (processJobQueue s).1
  | star (s : SysState) (idx : Nat) : Step s [] (toggleJobStar s idx)

/-- A transition with its events abstracted away. -/
def StepR (s s2 : SysState) : Prop := ∃ ev, Step s ev s2

/-- States a run can reach from the empty initial state. -/
def Reaches (s : SysState) : Prop :=
  Relation.ReflTransGen StepR initState s

/-- The in-flight designation of the claims: a job id named by currentJob
while isProcessing is true. -/
def inFlight (s : SysState) (id : String) : Prop :=
  s.isProcessing = true ∧ s.currentJob = some id

/-- A state where both the durable queue copy and the background state
mirror the popup, the property the persistence claim asserts is kept by
every operation. -/
def synced (s : SysState) : Prop :=
  s.storedQueue = s.jobQueue ∧
  s.bgMem = { isProcessing := s.isProcessing, currentJob := s.currentJob }

/-! Concrete jobs and a concrete run used by counterexamples and witnesses. -/

/-- A first discovered job, pending. -/
def jobA : Job :=
  { post_id := "1", jobTitle := "Backend Engineer", company := "Acme", url := "urlA",
    status := JobStatus.pending, starred := false, dateFound := 0 }

/-- A second discovered job, pending, with a distinct id. -/
def jobB : Job :=
  { post_id := "2", jobTitle := "Data Engineer", company := "Beta", url := "urlB",
    status := JobStatus.pending, starred := false, dateFound := 0 }

/-- A different candidate carrying the same post_id as jobA. -/
def jobA2 : Job :=
  { post_id := "1", jobTitle := "Platform Engineer", company := "Gamma", url := "urlC",
    status := JobStatus.pending, starred := false, dateFound := 1 }

/-- Description text used by the concrete run. -/
def descText : String := "descA"

/-- Cover letter text used by the concrete run. -/
def letterText : String := "letterA"

/-- jobA after description extraction and analysis, awaiting the decision. -/
def jobARev : Job :=
  { jobA with status := JobStatus.reviewing, description := some descText,
              matchScore := some 80, coverLetter := some letterText }

/-- The state right after a successful startApplication from the initial
state: processing, but with no current job. -/
def startedState : SysState := startApplication initState

/-- After the JOBS_SCRAPED message delivering jobA and jobB. -/
def st1 : SysState := (handleScrapedJobs initState [jobA, jobB]).1

/-- After the user presses Process Job on the first entry. -/
def st2 : SysState := (processSpecificJob st1 0).1

/-- After the description of jobA is scraped and the analysis succeeds:
jobA is reviewing, the popup paused for the decision, while the background
still holds isProcessing with jobA current. -/
def st3 : SysState := (dispatchDescriptionScraped st2 jobA.post_id (some descText)
  (Except.ok (80, letterText))).1

/-- After the background CONTINUE_PROCESSING notification arrives while
the decision on jobA is still pending. -/
def st4 : SysState := (continueDelivery st3 jobA.post_id).1

/-- Events of that notification delivery. -/
def ev4 : List Event := (continueDelivery st3 jobA.post_id).2

theorem reaches_startedState : Reaches startedState :=
  Relation.ReflTransGen.single ⟨[], Step.start initState⟩

theorem reaches_st1 : Reaches st1 :=
  Relation.ReflTransGen.single ⟨_, Step.scraped initState [jobA, jobB] (by decide)⟩

theorem reaches_st2 : Reaches st2 :=
  reaches_st1.tail ⟨_, Step.procSpecific st1 0⟩

theorem reaches_st3 : Reaches st3 :=
  reaches_st2.tail ⟨_, Step.descResult st2 jobA.post_id (some descText)
    (Except.ok (80, letterText))⟩

theorem reaches_st4 : Reaches st4 :=
  reaches_st3.tail ⟨_, Step.continueMsg st3 jobA.post_id (by decide) (by decide)⟩

/-! Helper lemmas about the store primitives. -/

theorem findJob_updateFirst (q : List Job) (id : String) (f : Job → Job)
    (hf : ∀ j, (f j).post_id = j.post_id) :
    findJob (updateFirst q id f) id = (findJob q id).map f := by
  induction q with
  | nil => rfl
  | cons j rest ih =>
    by_cases h : j.post_id = id
    · simp [updateFirst, findJob, List.find?, h, hf]
    · have hb : (j.post_id == id) = false := by simp [h]
      simp only [updateFirst, hb, if_false, findJob, List.find?, hb]
      exact ih

theorem updateFirst_map_post_id (q : List Job) (id : String) (f : Job → Job)
    (hf : ∀ j, (f j).post_id = j.post_id) :
    (updateFirst q id f).map Job.post_id = q.map Job.post_id := by
  induction q with
  | nil => rfl
  | cons j rest ih =>
    by_cases h : j.post_id = id
    · simp [updateFirst, h, hf]
    · have hb : (j.post_id == id) = false := by simp [h]
      simp [updateFirst, hb, ih]

theorem updateAt_map_post_id (q : List Job) (idx : Nat) (f : Job → Job)
    (hf : ∀ j, (f j).post_id = j.post_id) :
    (updateAt q idx f).map Job.post_id = q.map Job.post_id := by
  induction q generalizing idx with
  | nil => rfl
  | cons j rest ih =>
    cases idx with
    | zero => simp [updateAt, hf]
    | succ n => simp [updateAt, ih n]

theorem processJobQueue_jobQueue (s : SysState) :
    (processJobQueue s).1.jobQueue = s.jobQueue := by
  unfold processJobQueue
  split
  · rfl
  · cases firstPending s.jobQueue <;> simp

theorem processJobQueue_storedQueue (s : SysState) :
    (processJobQueue s).1.storedQueue = s.storedQueue := by
  unfold processJobQueue
  split
  · rfl
  · cases firstPending s.jobQueue <;> simp

theorem filter_false_of_all {α : Type} (p : α → Bool) :
    ∀ l : List α, (∀ a ∈ l, p a = false) → l.filter p = [] := by
  intro l
  induction l with
  | nil => intro _; rfl
  | cons a t ih =>
    intro h
    have ha := h a (List.mem_cons_self a t)
    simp [List.filter, ha, ih (fun x hx => h x (List.mem_cons_of_mem a hx))]

theorem find?_split {α : Type} (p : α → Bool) :
    ∀ (l : List α) (a : α), l.find? p = some a →
      ∃ l1 l2, l = l1 ++ a :: l2 ∧ ∀ x ∈ l1, p x = false := by
  intro l
  induction l with
  | nil => intro a h; cases h
  | cons b t ih =>
    intro a h
    cases hb : p b with
    | true =>
      rw [List.find?_cons_of_pos _ hb] at h
      exact ⟨[], t, by simp [(Option.some.inj h).symm], by simp⟩
    | false =>
      rw [List.find?_cons_of_neg _ (by simp [hb])] at h
      obtain ⟨l1, l2, he, hall⟩ := ih a h
      refine ⟨b :: l1, l2, by simp [he], ?_⟩
      intro x hx
      rcases List.mem_cons.mp hx with hx | hx
      · rw [hx]; exact hb
      · exact hall x hx

theorem mem_of_map_post_id_eq {q q2 : List Job}
    (h : q2.map Job.post_id = q.map Job.post_id) :
    ∀ j ∈ q, ∃ k ∈ q2, k.post_id = j.post_id := by
  intro j hj
  have hm : j.post_id ∈ q2.map Job.post_id := by
    rw [h]; exact List.mem_map_of_mem Job.post_id hj
  obtain ⟨k, hk, he⟩ := List.mem_map.mp hm
  exact ⟨k, hk, he⟩

theorem continueProcessing_jobQueue (s : SysState) :
    (continueProcessing s).1.jobQueue = s.jobQueue := by
  unfold continueProcessing
  split
  · exact processJobQueue_jobQueue s
  · rfl

theorem continueProcessing_storedQueue (s : SysState) :
    (continueProcessing s).1.storedQueue = s.storedQueue := by
  unfold continueProcessing
  split
  · exact processJobQueue_storedQueue s
  · rfl

theorem step_preserves_stored {s : SysState} {ev : List Event} {s2 : SysState}
    (h : Step s ev s2) (hs : s.storedQueue = s.jobQueue) :
    s2.storedQueue = s2.jobQueue := by
  cases h with
  | start => simpa [startApplication, updateBackgroundState] using hs
  | pause => simpa [pauseApplication, updateBackgroundState] using hs
  | scraped batch hb =>
    unfold handleScrapedJobs
    split
    · simpa using hs
    · split
      · simpa using hs
      · rw [processJobQueue_storedQueue, processJobQueue_jobQueue]
        simp [saveJobQueue]
  | procSpecific idx =>
    unfold processSpecificJob
    split
    · exact hs
    · split
      · rw [processJobQueue_storedQueue, processJobQueue_jobQueue]
        simpa [updateBackgroundState] using hs
      · exact hs
  | descResult id descOpt an =>
    unfold dispatchDescriptionScraped handleJobDescription
    dsimp only
    split
    · exact hs
    · unfold analyzeJobWithAI
      split
      · simp [saveJobQueue]
      · simp [saveJobQueue]
  | confirm =>
    unfold confirmApplication
    split
    · exact hs
    · simp [saveJobQueue]
  | decline =>
    unfold declineApplication
    split
    · exact hs
    · simp [saveJobQueue]
  | submitted id ok t =>
    unfold dispatchApplicationSubmitted handleApplicationSubmitted
    split
    · exact hs
    · split <;> simp [saveJobQueue]
  | clear => rfl
  | reopen =>
    unfold popupReopen
    dsimp only
    split
    · rw [continueProcessing_storedQueue, continueProcessing_jobQueue]
    · rfl
  | continueMsg id h1 h2 =>
    unfold continueDelivery
    rw [continueProcessing_storedQueue, continueProcessing_jobQueue]
    exact hs
  | loopTimer =>
    rw [processJobQueue_storedQueue, processJobQueue_jobQueue]
    exact hs
  | star idx =>
    unfold toggleJobStar
    split
    · simp [saveJobQueue]
    · exact hs

theorem appendUnique_overlap (queue batch : List Job)
    (h : ∀ c ∈ batch, c.post_id ∈ queue.map Job.post_id) :
    appendUnique queue batch = queue := by
  unfold appendUnique
  have hnil : batch.filter (fun c => !(queue.any (fun j => j.post_id == c.post_id))) = [] := by
    apply filter_false_of_all
    intro c hc
    obtain ⟨j, hj, hjc⟩ := List.mem_map.mp (h c hc)
    have hany : queue.any (fun j2 => j2.post_id == c.post_id) = true :=
      List.any_eq_true.mpr ⟨j, hj, by simp [hjc]⟩
    simp [hany]
  rw [hnil, List.append_nil]

theorem appendUnique_nodup (queue batch : List Job)
    (hq : (queue.map Job.post_id).Nodup) (hb : (batch.map Job.post_id).Nodup) :
    ((appendUnique queue batch).map Job.post_id).Nodup := by
  rw [appendUnique, List.map_append, List.nodup_append]
  refine ⟨hq, ?_, ?_⟩
  · exact List.Nodup.sublist
      (List.Sublist.map Job.post_id (List.filter_sublist batch)) hb
  · intro x hxq hxf
    obtain ⟨c, hcf, hcx⟩ := List.mem_map.mp hxf
    obtain ⟨hcb, hpc⟩ := List.mem_filter.mp hcf
    have hany : (queue.any fun j2 => j2.post_id == c.post_id) = false := by
      simpa using hpc
    obtain ⟨j, hjq, hjx⟩ := List.mem_map.mp hxq
    have htrue : (queue.any fun j2 => j2.post_id == c.post_id) = true := by
      refine List.any_eq_true.mpr ⟨j, hjq, ?_⟩
      have he : j.post_id = c.post_id := hjx.trans hcx.symm
      simp [he]
    rw [hany] at htrue
    cases htrue

theorem foldl_appendUnique_nodup :
    ∀ (batches : List (List Job)) (queue : List Job),
      (queue.map Job.post_id).Nodup →
      (∀ b ∈ batches, (b.map Job.post_id).Nodup) →
      ((batches.foldl appendUnique queue).map Job.post_id).Nodup := by
  intro batches
  induction batches with
  | nil =>
    intro queue hq _
    simpa using hq
  | cons b bs ih =>
    intro queue hq hall
    simp only [List.foldl_cons]
    exact ih (appendUnique queue b)
      (appendUnique_nodup queue b hq (hall b (List.mem_cons_self b bs)))
      (fun x hx => hall x (List.mem_cons_of_mem b hx))

theorem reaches_stored_eq : ∀ s : SysState, Reaches s → s.storedQueue = s.jobQueue := by
  intro s h
  induction h with
  | refl => rfl
  | tail _ hstep ih =>
    obtain ⟨ev, hst⟩ := hstep
    exact step_preserves_stored hst ih

theorem findJob_updateFirst_some {q : List Job} {id : String} {j : Job} (f : Job → Job)
    (hf : ∀ k, (f k).post_id = k.post_id) (h : findJob q id = some j) :
    findJob (updateFirst q id f) id = some (f j) := by
  rw [findJob_updateFirst q id f hf, h]
  rfl

/-- A state holding the two discovered jobs, used by several witnesses. -/
def sQueueA : SysState := { initState with jobQueue := [jobA, jobB] }

/-! Claim theorems. -/

/-- Claim C7 (confirmed): an iteration of the scheduling loop, when not
paused, selects the first job in insertion order whose status is pending;
if none exists it sets isProcessing to false and stops, leaving the store
unchanged. -/
theorem C7_scheduling_loop :
    ∀ s : SysState, s.isPaused = false →
      ((firstPending s.jobQueue = none →
          processJobQueue s = ({ s with isProcessing := false }, [])) ∧
       (∀ j : Job, firstPending s.jobQueue = some j →
          processJobQueue s =
            ({ s with currentJob := some j.post_id }, [Event.extractDesc j.post_id]) ∧
          j ∈ s.jobQueue ∧ j.status = JobStatus.pending ∧
          ∃ l1 l2 : List Job, s.jobQueue = l1 ++ j :: l2 ∧
            ∀ k ∈ l1, k.status ≠ JobStatus.pending)) := by
  intro s hp
  constructor
  · intro hfp
    simp [processJobQueue, hp, hfp]
  · intro j hfp
    refine ⟨by simp [processJobQueue, hp, hfp], List.mem_of_find?_eq_some hfp, ?_, ?_⟩
    · have hps := List.find?_some hfp
      simpa using hps
    · obtain ⟨l1, l2, he, hall⟩ := find?_split _ s.jobQueue j hfp
      refine ⟨l1, l2, he, ?_⟩
      intro k hk
      have hk2 := hall k hk
      simpa using hk2

/-- Witness for C7 at a concrete two-job state. -/
theorem C7_scheduling_loop_witness :
    processJobQueue sQueueA =
      ({ sQueueA with currentJob := some jobA.post_id }, [Event.extractDesc jobA.post_id]) ∧
    jobA ∈ sQueueA.jobQueue ∧ jobA.status = JobStatus.pending :=
  let h := (C7_scheduling_loop sQueueA rfl).2 jobA (by decide)
  ⟨h.1, h.2.1, h.2.2.1⟩

/-- Claim C10 (confirmed): a discovery result that is empty, or whose
candidate ids are all already present in the store, makes the handler set
isProcessing to false and return without entering the scheduling loop and
without touching the store. -/
theorem C10_stale_discovery_stops :
    ∀ (s : SysState) (batch : List Job),
      (batch = [] ∨ ∀ c ∈ batch, c.post_id ∈ s.jobQueue.map Job.post_id) →
      handleScrapedJobs s batch = ({ s with isProcessing := false }, []) := by
  intro s batch h
  rcases h with h | h
  · simp [handleScrapedJobs, h]
  · unfold handleScrapedJobs
    by_cases hb : batch.isEmpty
    · simp [hb]
    · have hnil : batch.filter
          (fun c => !(s.jobQueue.any (fun j => j.post_id == c.post_id))) = [] := by
        apply filter_false_of_all
        intro c hc
        obtain ⟨j, hj, hjc⟩ := List.mem_map.mp (h c hc)
        have hany : s.jobQueue.any (fun j2 => j2.post_id == c.post_id) = true :=
          List.any_eq_true.mpr ⟨j, hj, by simp [hjc]⟩
        simp [hany]
      simp [hb, hnil]

/-- Witness for C10: a batch consisting of a candidate whose id is already
stored inserts nothing and stops processing. -/
theorem C10_stale_discovery_stops_witness :
    handleScrapedJobs sQueueA [jobA2] = ({ sQueueA with isProcessing := false }, []) :=
  C10_stale_discovery_stops sQueueA [jobA2] (Or.inr (by decide))

/-- Claim C9 (confirmed): from a reviewing job under review, approval
attempts submission; a success report makes the job applied with its
submission timestamp recorded, a failure report makes it skipped with
lastError set; the listener drops the reported reason, so the recorded
error is always the fixed fallback text. -/
theorem C9_approval_outcomes :
    ∀ (s : SysState) (id : String) (j : Job) (t : Nat),
      s.currentJob = some id → findJob s.jobQueue id = some j →
      j.status = JobStatus.reviewing →
      (Event.submitAttempt id ∈ (confirmApplication s).2 ∧
       statusOf (dispatchApplicationSubmitted (confirmApplication s).1 id true t).1.jobQueue id
         = some JobStatus.applied ∧
       ((findJob (dispatchApplicationSubmitted (confirmApplication s).1 id true t).1.jobQueue id).bind
          Job.appliedDate) = some t ∧
       statusOf (dispatchApplicationSubmitted (confirmApplication s).1 id false t).1.jobQueue id
         = some JobStatus.skipped ∧
       errorOf (dispatchApplicationSubmitted (confirmApplication s).1 id false t).1.jobQueue id
         = some submitFailText) := by
  intro s id j t hcur hfind hrev
  have hev : (confirmApplication s).2 = [Event.submitAttempt id, Event.scheduleLoop 2000] := by
    simp [confirmApplication, hcur]
  have hq1 : (confirmApplication s).1.jobQueue =
      updateFirst s.jobQueue id (fun x => { x with status := JobStatus.applying }) := by
    simp [confirmApplication, hcur, saveJobQueue]
  have hfind1 : findJob (confirmApplication s).1.jobQueue id
      = some { j with status := JobStatus.applying } := by
    rw [hq1]
    exact findJob_updateFirst_some _ (fun _ => rfl) hfind
  have hq2ok : (dispatchApplicationSubmitted (confirmApplication s).1 id true t).1.jobQueue =
      updateFirst (confirmApplication s).1.jobQueue id
        (fun x => { x with status := JobStatus.applied, appliedDate := some t }) := by
    simp [dispatchApplicationSubmitted, handleApplicationSubmitted, hfind1, saveJobQueue]
  have hq2err : (dispatchApplicationSubmitted (confirmApplication s).1 id false t).1.jobQueue =
      updateFirst (confirmApplication s).1.jobQueue id
        (fun x => { x with status := JobStatus.skipped, error := some submitFailText }) := by
    simp [dispatchApplicationSubmitted, handleApplicationSubmitted, hfind1, saveJobQueue]
  have hfok := findJob_updateFirst_some
    (fun x => { x with status := JobStatus.applied, appliedDate := some t })
    (fun _ => rfl) hfind1
  have hferr := findJob_updateFirst_some
    (fun x => { x with status := JobStatus.skipped, error := some submitFailText })
    (fun _ => rfl) hfind1
  refine ⟨by rw [hev]; simp, ?_, ?_, ?_, ?_⟩
  · rw [statusOf, hq2ok, hfok]
    rfl
  · rw [hq2ok, hfok]
    rfl
  · rw [statusOf, hq2err, hferr]
    rfl
  · rw [errorOf, hq2err, hferr]
    rfl

/-- Witness for C9 at the concrete post-review state. -/
theorem C9_approval_outcomes_witness :
    statusOf (dispatchApplicationSubmitted (confirmApplication st3).1 jobA.post_id true 7).1.jobQueue jobA.post_id
      = some JobStatus.applied ∧
    errorOf (dispatchApplicationSubmitted (confirmApplication st3).1 jobA.post_id false 7).1.jobQueue jobA.post_id
      = some submitFailText :=
  let h := C9_approval_outcomes st3 jobA.post_id jobARev 7 (by decide) (by decide) (by decide)
  ⟨h.2.1, h.2.2.2.2⟩

/-- A state with both jobs discovered and jobA current, used by witnesses. -/
def sCur : SysState := { sQueueA with currentJob := some jobA.post_id }

/-- jobA mid-submission, as an approval leaves it. -/
def jobAApplying : Job := { jobARev with status := JobStatus.applying }

/-- A state where jobA is applying after an approval, used by the C4
evaluation. -/
def sApplying : SysState :=
  { sQueueA with jobQueue := [jobAApplying, jobB], currentJob := some jobA.post_id }

/-- Claim C4 (code_bug): the claimed failure policy is what the content
scripts and the handler functions implement on their own ends (the
extraction script sends the error message, handleJobDescription has the
skip-and-record branch, handleApplicationSubmitted takes the reported
reason), but the popup listener forwards only message.jobId with
message.description or message.success, dropping message.error, so the
policy is broken in the program. Evaluated at the failing input: an
extraction-failure message for pending jobA (a message with no
description field) does not skip the job and records no error; its
description becomes undefined and analysis proceeds on it, here
succeeding and promoting the job to reviewing; and a submission-failure
report records only the generic fallback text, never the reported
reason. -/
theorem C4_error_dropped_eval :
    statusOf (dispatchDescriptionScraped sCur jobA.post_id none
        (Except.ok (80, letterText))).1.jobQueue jobA.post_id = some JobStatus.reviewing ∧
    errorOf (dispatchDescriptionScraped sCur jobA.post_id none
        (Except.ok (80, letterText))).1.jobQueue jobA.post_id = none ∧
    ((findJob (dispatchDescriptionScraped sCur jobA.post_id none
        (Except.ok (80, letterText))).1.jobQueue jobA.post_id).bind Job.description) = none ∧
    errorOf (dispatchApplicationSubmitted sApplying jobA.post_id false 7).1.jobQueue jobA.post_id
      = some submitFailText := by
  decide

/-- Claim C1 (corrected), counterexample: the claim that isProcessing=true
always implies currentJobId resolves to a stored non-terminal job fails on
a reachable state, because startApplication raises isProcessing without
installing any current job: right after a start from the empty state,
isProcessing is true while the store is empty. -/
theorem C1_counterexample :
    ¬ (∀ s : SysState, Reaches s → s.isProcessing = true →
        ∃ j : Job, j ∈ s.jobQueue ∧ s.currentJob = some j.post_id ∧
          j.status ≠ JobStatus.applied ∧ j.status ≠ JobStatus.skipped) := by
  intro h
  obtain ⟨j, hj, _, _⟩ := h startedState reaches_startedState (by decide)
  rw [show startedState.jobQueue = [] from rfl] at hj
  exact (List.not_mem_nil j) hj

/-- Claim C1 (corrected), amended: at every reachable state at most one
job holds the in-flight designation, and whenever the scheduling loop
selects a job it is one present in the store with status pending; but
isProcessing=true does not imply the current job reference resolves to a
non-terminal stored job. -/
theorem C1_amended :
    (∀ s : SysState, Reaches s → ∀ a b : String, inFlight s a → inFlight s b → a = b) ∧
    (∀ (q : List Job) (j : Job), firstPending q = some j →
        j ∈ q ∧ j.status = JobStatus.pending) := by
  constructor
  · intro s _ a b ha hb
    exact Option.some.inj (ha.2.symm.trans hb.2)
  · intro q j h
    refine ⟨List.mem_of_find?_eq_some h, ?_⟩
    have hj := List.find?_some h
    simpa using hj

/-- Witness for the amended C1 at the concrete reachable state where jobA
is in flight. -/
theorem C1_amended_witness :
    (jobA.post_id = jobA.post_id) ∧ jobA ∈ sQueueA.jobQueue :=
  ⟨C1_amended.1 st2 reaches_st2 jobA.post_id jobA.post_id
     ⟨by decide, by decide⟩ ⟨by decide, by decide⟩,
   (C1_amended.2 sQueueA.jobQueue jobA (by decide)).1⟩

/-- Claim C2 (corrected), counterexample: resumption after popup
recreation does not re-enter the sub-stage of the persisted current job.
With jobA persisted as reviewing and current while jobB is pending, the
reopened popup does not re-surface the decision on jobA: it starts
extraction for jobB instead. -/
theorem C2_counterexample :
    ¬ (∀ (s : SysState) (id : String) (j : Job),
        s.bgMem.isProcessing = true → s.bgMem.currentJob = some id →
        findJob s.storedQueue id = some j →
        ((j.status = JobStatus.pending → Event.extractDesc id ∈ (popupReopen s).2) ∧
         (j.status = JobStatus.reviewing → Event.surfaceReview id ∈ (popupReopen s).2) ∧
         (j.status = JobStatus.applying → Event.submitAttempt id ∈ (popupReopen s).2) ∧
         (∀ b, Event.extractDesc b ∈ (popupReopen s).2 → b = id))) := by
  intro h
  have h2 := (h st3 jobA.post_id jobARev (by decide) (by decide) (by decide)).2.1 (by decide)
  exact absurd h2 (by decide)

/-- Claim C2 (corrected), amended: when the reopened popup finds
isProcessing=true with a current job recorded, it re-enters the scheduling
loop, which selects the first pending job of the persisted store, or stops
with isProcessing=false when none is pending; the persisted current job is
resumed only in so far as it happens to be that first pending job, and a
reviewing or applying current job is not resumed at its sub-stage. -/
theorem C2_amended :
    ∀ (s : SysState) (id : String),
      s.bgMem.isProcessing = true → s.bgMem.currentJob = some id →
      ((firstPending s.storedQueue = none →
          (popupReopen s).1.isProcessing = false ∧ (popupReopen s).2 = []) ∧
       (∀ k : Job, firstPending s.storedQueue = some k →
          (popupReopen s).1.currentJob = some k.post_id ∧
          (popupReopen s).2 = [Event.extractDesc k.post_id])) := by
  intro s id h1 h2
  constructor
  · intro hfp
    constructor <;> simp [popupReopen, continueProcessing, processJobQueue, h1, h2, hfp]
  · intro k hfp
    constructor <;> simp [popupReopen, continueProcessing, processJobQueue, h1, h2, hfp]

/-- Witness for the amended C2 at the concrete post-review state: the
reopened popup starts extraction for jobB. -/
theorem C2_amended_witness :
    (popupReopen st3).1.currentJob = some jobB.post_id ∧
    (popupReopen st3).2 = [Event.extractDesc jobB.post_id] :=
  (C2_amended st3 jobA.post_id (by decide) (by decide)).2 jobB (by decide)

/-- Claim C3 (corrected), counterexample: uniqueness of stored ids is not
maintained by the insertion path alone, because the duplicate filter only
compares candidates against the existing store, not against each other: a
single batch holding two candidates with the same id inserts both. -/
theorem C3_counterexample :
    ¬ (∀ (batches : List (List Job)) (queue : List Job),
        (queue.map Job.post_id).Nodup →
        ((batches.foldl appendUnique queue).map Job.post_id).Nodup) := by
  intro h
  have h2 := h [[jobA, jobA2]] [] (by decide)
  exact absurd h2 (by decide)

/-- Claim C3 (corrected), amended: a call whose candidate ids are all
already present inserts zero jobs, and any sequence of appendUnique calls
preserves distinctness of stored ids provided each individual batch has
pairwise-distinct ids; in-batch duplicates are not filtered. -/
theorem C3_amended :
    (∀ (queue batch : List Job),
        (∀ c ∈ batch, c.post_id ∈ queue.map Job.post_id) → appendUnique queue batch = queue) ∧
    (∀ (batches : List (List Job)) (queue : List Job),
        (queue.map Job.post_id).Nodup →
        (∀ b ∈ batches, (b.map Job.post_id).Nodup) →
        ((batches.foldl appendUnique queue).map Job.post_id).Nodup) :=
  ⟨appendUnique_overlap, foldl_appendUnique_nodup⟩

/-- Witness for the amended C3 on concrete stores. -/
theorem C3_amended_witness :
    appendUnique [jobA] [jobA2] = [jobA] ∧
    (([[jobA], [jobB]].foldl appendUnique []).map Job.post_id).Nodup :=
  ⟨C3_amended.1 [jobA] [jobA2] (by decide),
   C3_amended.2 [[jobA], [jobB]] [] (by decide) (by decide)⟩

/-- Claim C5 (corrected), counterexample: not every mutating operation
persists the whole mutated state before returning. From a fully synced
state, the step that stores a successful analysis also pauses the popup
(showReviewSection sets isProcessing to false) without informing the
background, leaving the persisted application state stale. -/
theorem C5_counterexample :
    ¬ (∀ (s : SysState) (ev : List Event) (s2 : SysState),
        synced s → Step s ev s2 → synced s2) := by
  intro h
  have h2 := h st2 _ _ ⟨by decide, by decide⟩
    (Step.descResult st2 jobA.post_id (some descText) (Except.ok (80, letterText)))
  exact absurd h2.2 (by decide)

/-- Claim C5 (corrected), amended: every job-store mutation is persisted
before the mutating operation returns, so on every reachable state the
stored queue equals the in-memory queue; the application-state fields are
persisted only by the operations that send the update message. -/
theorem C5_amended : ∀ s : SysState, Reaches s → s.storedQueue = s.jobQueue :=
  reaches_stored_eq

/-- Witness for the amended C5 at the concrete post-review state. -/
theorem C5_amended_witness : st3.storedQueue = st3.jobQueue :=
  C5_amended st3 reaches_st3

/-- Claim C6 (corrected), counterexample: the controller can advance past
a pending human decision. At the reachable state where jobA is reviewing
with the popup paused, the background CONTINUE_PROCESSING notification
(armed from the stale persisted isProcessing=true) raises isProcessing and
starts extraction for jobB while the decision on jobA is still pending and
no approve or decline input occurred. -/
theorem C6_counterexample :
    ¬ (∀ (s : SysState) (ev : List Event) (s2 : SysState) (a : String),
        Reaches s → Step s ev s2 →
        s.isProcessing = false → s.currentJob = some a →
        statusOf s.jobQueue a = some JobStatus.reviewing →
        statusOf s2.jobQueue a = some JobStatus.reviewing →
        ev = [] ∧ s2.isProcessing = false) := by
  intro h
  have h2 := h st3 ev4 st4 jobA.post_id reaches_st3
    (Step.continueMsg st3 jobA.post_id (by decide) (by decide))
    (by decide) (by decide) (by decide) (by decide)
  exact absurd h2.1 (by decide)

/-- Claim C6 (corrected), amended: reaching reviewing does pause the
controller and surface the job, and the two explicit inputs behave as
claimed: a successful analysis stores the reviewing status, sets
isProcessing to false and surfaces exactly that job; decline skips the
current job without any submission attempt and resumes; confirm attempts
submission of the current job and resumes; but the background continue
notification can also resume the loop while the decision is pending. -/
theorem C6_amended :
    ∀ (s : SysState) (id : String) (j : Job), findJob s.jobQueue id = some j →
      ((∀ (desc : String) (score : Nat) (letterT : String),
          (dispatchDescriptionScraped s id (some desc) (Except.ok (score, letterT))).1.isProcessing
            = false ∧
          statusOf (dispatchDescriptionScraped s id (some desc) (Except.ok (score, letterT))).1.jobQueue id
            = some JobStatus.reviewing ∧
          (dispatchDescriptionScraped s id (some desc) (Except.ok (score, letterT))).2
            = [Event.surfaceReview id]) ∧
       (s.currentJob = some id →
          ((∀ b : String, Event.submitAttempt b ∉ (declineApplication s).2) ∧
           statusOf (declineApplication s).1.jobQueue id = some JobStatus.skipped ∧
           (declineApplication s).1.isProcessing = true) ∧
          (Event.submitAttempt id ∈ (confirmApplication s).2 ∧
           (confirmApplication s).1.isProcessing = true))) := by
  intro s id j hfind
  constructor
  · intro desc score letterT
    have hproc : (dispatchDescriptionScraped s id (some desc) (Except.ok (score, letterT))).1.isProcessing
        = false := by
      simp [dispatchDescriptionScraped, handleJobDescription, hfind, analyzeJobWithAI, saveJobQueue]
    have hq : (dispatchDescriptionScraped s id (some desc) (Except.ok (score, letterT))).1.jobQueue =
        updateFirst (updateFirst s.jobQueue id (fun x => { x with description := some desc })) id
          (fun x => { x with matchScore := some score, coverLetter := some letterT,
                             status := JobStatus.reviewing }) := by
      simp [dispatchDescriptionScraped, handleJobDescription, hfind, analyzeJobWithAI, saveJobQueue]
    have hmid := findJob_updateFirst_some
      (fun x => { x with description := some desc }) (fun _ => rfl) hfind
    have hf := findJob_updateFirst_some
      (fun x => { x with matchScore := some score, coverLetter := some letterT,
                         status := JobStatus.reviewing }) (fun _ => rfl) hmid
    refine ⟨hproc, ?_, ?_⟩
    · rw [statusOf, hq, hf]
      rfl
    · simp [dispatchDescriptionScraped, handleJobDescription, hfind, analyzeJobWithAI]
  · intro hcur
    have hdev : (declineApplication s).2 = [Event.scheduleLoop 1000] := by
      simp [declineApplication, hcur]
    have hdq : (declineApplication s).1.jobQueue =
        updateFirst s.jobQueue id (fun x => { x with status := JobStatus.skipped }) := by
      simp [declineApplication, hcur, saveJobQueue]
    have hdf := findJob_updateFirst_some
      (fun x => { x with status := JobStatus.skipped }) (fun _ => rfl) hfind
    refine ⟨⟨?_, ?_, ?_⟩, ?_, ?_⟩
    · intro b
      rw [hdev]
      simp
    · rw [statusOf, hdq, hdf]
      rfl
    · simp [declineApplication, hcur]
    · have hcev : (confirmApplication s).2
          = [Event.submitAttempt id, Event.scheduleLoop 2000] := by
        simp [confirmApplication, hcur]
      rw [hcev]
      simp
    · simp [confirmApplication, hcur]

/-- Witness for the amended C6 at a concrete state with jobA current. -/
theorem C6_amended_witness :
    (dispatchDescriptionScraped sCur jobA.post_id (some descText)
        (Except.ok (80, letterText))).1.isProcessing = false ∧
    statusOf (declineApplication sCur).1.jobQueue jobA.post_id = some JobStatus.skipped :=
  let h := C6_amended sCur jobA.post_id jobA (by decide)
  ⟨(h.1 descText 80 letterText).1, (h.2 (by decide)).1.2.1⟩

theorem step_queue_shape {s : SysState} {ev : List Event} {s2 : SysState}
    (h : Step s ev s2) (hs : s.storedQueue = s.jobQueue) :
    s2.jobQueue.map Job.post_id = s.jobQueue.map Job.post_id ∨
    (∃ extra : List Job, s2.jobQueue = s.jobQueue ++ extra) ∨
    (s2.jobQueue = [] ∧ s2.storedQueue = []) := by
  cases h with
  | start => left; rfl
  | pause => left; rfl
  | scraped batch hb =>
    unfold handleScrapedJobs
    split
    · left; rfl
    · split
      · left; rfl
      · right; left
        exact ⟨_, by rw [processJobQueue_jobQueue]; rfl⟩
  | procSpecific idx =>
    left
    unfold processSpecificJob
    split
    · rfl
    · split
      · rw [processJobQueue_jobQueue]
        rfl
      · rfl
  | descResult id descOpt an =>
    unfold dispatchDescriptionScraped handleJobDescription
    dsimp only
    split
    · left; rfl
    · unfold analyzeJobWithAI
      split
      · left
        refine Eq.trans (updateFirst_map_post_id _ _ _ (fun _ => rfl)) ?_
        exact updateFirst_map_post_id _ _ _ (fun _ => rfl)
      · left
        refine Eq.trans (updateFirst_map_post_id _ _ _ (fun _ => rfl)) ?_
        exact updateFirst_map_post_id _ _ _ (fun _ => rfl)
  | confirm =>
    unfold confirmApplication
    split
    · left; rfl
    · left
      exact updateFirst_map_post_id _ _ _ (fun _ => rfl)
  | decline =>
    unfold declineApplication
    split
    · left; rfl
    · left
      exact updateFirst_map_post_id _ _ _ (fun _ => rfl)
  | submitted id ok t =>
    unfold dispatchApplicationSubmitted handleApplicationSubmitted
    split
    · left; rfl
    · split
      · left
        exact updateFirst_map_post_id _ _ _ (fun _ => rfl)
      · left
        exact updateFirst_map_post_id _ _ _ (fun _ => rfl)
  | clear => right; right; exact ⟨rfl, rfl⟩
  | reopen =>
    left
    unfold popupReopen
    dsimp only
    split
    · rw [continueProcessing_jobQueue]
      simp [hs]
    · simp [hs]
  | continueMsg id h1 h2 =>
    left
    unfold continueDelivery
    rw [continueProcessing_jobQueue]
  | loopTimer =>
    left
    rw [processJobQueue_jobQueue]
  | star idx =>
    unfold toggleJobStar
    split
    · left
      exact updateAt_map_post_id _ _ _ (fun _ => rfl)
    · left; rfl

/-- Claim C8 (corrected), counterexample: clear-all does not reset the
live application state to its initial value: clearing right after a start
leaves isProcessing true in the interactive context. -/
theorem C8_counterexample :
    ¬ (∀ s : SysState, Reaches s →
        ((clearAllData s).jobQueue = [] ∧ (clearAllData s).isProcessing = false ∧
         (clearAllData s).isPaused = false ∧ (clearAllData s).currentJob = none)) := by
  intro h
  have h2 := (h startedState reaches_startedState).2.1
  exact absurd h2 (by decide)

/-- Claim C8 (corrected), amended: clear-all empties both the in-memory
store and the persisted store while leaving the live isProcessing,
isPaused, currentJob and background state untouched; and no other
operation removes a job: every reachable step either preserves every
stored job id or is the clearing step that empties the whole store. -/
theorem C8_amended :
    (∀ s : SysState, (clearAllData s).jobQueue = [] ∧ (clearAllData s).storedQueue = [] ∧
        (clearAllData s).isProcessing = s.isProcessing ∧
        (clearAllData s).isPaused = s.isPaused ∧
        (clearAllData s).currentJob = s.currentJob ∧
        (clearAllData s).bgMem = s.bgMem) ∧
    (∀ (s : SysState) (ev : List Event) (s2 : SysState), Reaches s → Step s ev s2 →
        ((∀ j ∈ s.jobQueue, ∃ k ∈ s2.jobQueue, k.post_id = j.post_id) ∨
         (s2.jobQueue = [] ∧ s2.storedQueue = []))) := by
  constructor
  · intro s
    exact ⟨rfl, rfl, rfl, rfl, rfl, rfl⟩
  · intro s ev s2 hr hst
    have hs := reaches_stored_eq s hr
    rcases step_queue_shape hst hs with hm | ⟨extra, he⟩ | hc
    · left
      exact mem_of_map_post_id_eq hm
    · left
      intro j hj
      exact ⟨j, by rw [he]; exact List.mem_append_left _ hj, rfl⟩
    · right
      exact hc

/-- Witness for the amended C8: clearing the started state empties the
store, and the concrete process-specific step preserves every job id. -/
theorem C8_amended_witness :
    (clearAllData startedState).jobQueue = [] ∧
    ((∀ j ∈ st1.jobQueue, ∃ k ∈ st2.jobQueue, k.post_id = j.post_id) ∨
     (st2.jobQueue = [] ∧ st2.storedQueue = [])) :=
  ⟨(C8_amended.1 startedState).1,
   C8_amended.2 st1 _ _ reaches_st1 (Step.procSpecific st1 0)⟩

end JobApplierSpec
